import Mathlib

/-!
Verification of the submission-analytics core of `src/pages/teacher.py`.

The dashboard classifies AI feedback strings into O/X outcomes
(`ox_from_feedback`, lines 101-109), builds per-question counts and
percentage rates (`build_analytics`, lines 111-142), filters records by a
KST (UTC+9) date range (lines 188-192), and produces a per-student summary
that keeps only each student's most recent submission and sorts by the
number of O outcomes (`count_o_in_row` / `df_latest`, lines 353-370).

Modelling conventions:
* Python strings are `List Char`; a nullable/dynamically typed feedback cell
  is `PyVal` (`null` covers both `None` and pandas `NaN`, `other` any
  non-string value).
* Timestamps are microseconds since an epoch, as integers; `created_at` is
  the UTC value and `created_at_kst` adds the fixed +9h offset, exactly as
  `tz_convert(KST)` does.  Dates are day numbers in KST.
* The displayed percentage rates are IEEE-754 binary64 results of
  `o_cnt / n * 100` followed by Python `round(x, 1)`.  Floats are not
  embedded wholesale: the statistics structure carries the exact integer
  counts only, and `float_rate_tenths` reproduces the double-precision
  rate bit-for-bit at the concrete inputs of the C3/C7 theorems — each
  step is a round-half-even of an explicit integer fraction (`rheNat`),
  with the binade of every intermediate certified by integer
  inequalities (`binade_ok`).
* pandas `sort_values(ascending=False)` reverses an ascending argsort
  (`nargsort`) whose kind defaults to numpy's unstable quicksort, so only
  the key ordering of its output is specified.  The executable model
  reverses a stable insertion sort — numpy's actual algorithm for runs
  shorter than 17 elements — and the general theorems use only ordering
  and permutation facts of the result, never the model's tie order; the
  concrete two-row evaluations lie in the insertion-sort regime where the
  model is exact.  `groupby` enumerates groups with keys sorted
  ascending, and `.first()` takes the first row of each group (all
  extracted columns are non-null here).
-/

/-- Outcome of classifying one feedback string: `"O"` or `"X"` in the source. -/
inductive OX where
  | O : OX
  | X : OX
deriving DecidableEq

/-- A dynamically typed cell as seen by `ox_from_feedback`: a Python string,
`None`/`NaN`, or any non-string value. -/
inductive PyVal where
  | null : PyVal
  | str : List Char → PyVal
  | other : PyVal
deriving DecidableEq

/-- Python `str.strip()`: drop whitespace from both ends. -/
def pyStrip (s : List Char) : List Char :=
  ((s.dropWhile Char.isWhitespace).reverse.dropWhile Char.isWhitespace).reverse

/-- Python `str.startswith(p)`. -/
def pyStartsWith : List Char → List Char → Bool
  | [], _ => true
  | _ :: _, [] => false
  | p :: ps, c :: cs => p = c && pyStartsWith ps cs

/-- `ox_from_feedback` (teacher.py lines 101-109): non-strings and the empty
string map to `none`; otherwise the stripped text must start with `"O:"`
(giving `O`) or `"X:"` (giving `X`), and anything else maps to `none`. -/
def ox_from_feedback : PyVal → Option OX
  | PyVal.str f =>
    if f = [] then none
    else
      let t := pyStrip f
      if pyStartsWith ['O', ':'] t then some OX.O
      else if pyStartsWith ['X', ':'] t then some OX.X
      else none
  | _ => none

/-- `ox == "O"` on one cell of the classified column. -/
def isO : Option OX → Bool
  | some OX.O => true
  | _ => false

/-- `ox == "X"` on one cell of the classified column. -/
def isX : Option OX → Bool
  | some OX.X => true
  | _ => false

/-- Round half to even of the fraction `a / b` (naturals, `b ≠ 0`): the
rounding used both by IEEE-754 round-to-nearest when forming a binary64
significand and by CPython `round` on the exact value of a double. -/
def rheNat (a b : ℕ) : ℕ :=
  if 2 * (a % b) < b then a / b
  else if b < 2 * (a % b) then a / b + 1
  else if (a / b) % 2 = 0 then a / b else a / b + 1

/-- The integer columns of one row of the per-question statistics table
built by `build_analytics` (teacher.py lines 122-140).  The row also
carries the two float-valued display rates `round(o_cnt / n * 100, 1)`;
those binary64 columns are not part of this integer structure — see
`float_rate_tenths` for their bit-exact evaluation at the inputs where
they decide a claim. -/
structure QStat where
  q : ℕ
  o_cnt : ℕ
  x_cnt : ℕ
  missing : ℕ
deriving DecidableEq

/-- The counting part of the `for i in [1, 2, 3]` loop body of
`build_analytics` (teacher.py lines 122-140) on the feedback column `fs`
of question `i`: classify every cell and count `O` (`(ox == "O").sum()`),
`X`, and missing (`ox.isna().sum()`) cells.  The classified (`notna`)
count `n` used as the rate denominator equals `o_cnt + x_cnt`
(`filter_isSome_split`). -/
def q_stat (i : ℕ) (fs : List PyVal) : QStat :=
  let ox := fs.map ox_from_feedback
  { q := i
    o_cnt := (ox.filter isO).length
    x_cnt := (ox.filter isX).length
    missing := (ox.filter Option.isNone).length }

/-- One submission record (one row of the fetched table), over an abstract
linearly ordered type `σ` of student identifiers (the source coerces them
to Python strings, ordered lexicographically). -/
structure Record (σ : Type) where
  student_id : σ
  created_at : ℤ
  feedback_1 : PyVal
  feedback_2 : PyVal
  feedback_3 : PyVal
deriving DecidableEq

/-- The fetched table together with its schema: which of the three feedback
columns and the `created_at` column are present. -/
structure DataFrame (σ : Type) where
  has1 : Bool
  has2 : Bool
  has3 : Bool
  hasCreated : Bool
  rows : List (Record σ)
deriving DecidableEq

/-- `build_analytics` (teacher.py lines 111-142): `None` on an empty frame,
otherwise one `QStat` per feedback column present in the schema, in
question order; absent columns are skipped. -/
def build_analytics {σ : Type} (df : DataFrame σ) : Option (List QStat) :=
  if df.rows.isEmpty then none
  else
    some ((if df.has1 then [q_stat 1 (df.rows.map Record.feedback_1)] else [])
      ++ (if df.has2 then [q_stat 2 (df.rows.map Record.feedback_2)] else [])
      ++ (if df.has3 then [q_stat 3 (df.rows.map Record.feedback_3)] else []))

/-- Insert `a` into a list already sorted ascending by `key`, before the
first element whose key is `≥ key a` (a stable insertion step). -/
def insertAsc {α β : Type} [LinearOrder β] (key : α → β) (a : α) : List α → List α
  | [] => [a]
  | b :: l => if key a ≤ key b then a :: b :: l else b :: insertAsc key a l

/-- Stable insertion sort, ascending by `key`.  numpy's argsort — what
pandas `sort_values` runs — is exactly insertion sort for runs shorter
than 17 elements and an unstable introsort beyond, so only the key
ordering of its output is specified in general; the theorems below use
the model's tie order only at two-row inputs, where it is the program's. -/
def sortAsc {α β : Type} [LinearOrder β] (key : α → β) : List α → List α
  | [] => []
  | a :: l => insertAsc key a (sortAsc key l)

/-- pandas `sort_values(by=key, ascending=False)`: `nargsort` computes an
ascending argsort of the key and reverses the resulting indexer.  The
executable model uses the stable ascending sort; the general theorems
depend only on the key ordering and the multiset of elements, which the
program guarantees, never on the model's tie order. -/
def sort_values_desc {α β : Type} [LinearOrder β] (key : α → β) (l : List α) : List α :=
  (sortAsc key l).reverse

/-- `created_at_kst` (teacher.py line 90): `tz_convert(KST)` adds the fixed
+9h offset, here in microseconds. -/
def created_at_kst {σ : Type} (r : Record σ) : ℤ :=
  r.created_at + 32400000000

/-- `count_o_in_row` (teacher.py lines 353-359): how many of the feedback
columns that exist in the schema classify as `O` on this row (`r.get`
returns `None` for an absent column). -/
def count_o_in_row {σ : Type} (df : DataFrame σ) (r : Record σ) : ℕ :=
  (if df.has1 ∧ ox_from_feedback r.feedback_1 = some OX.O then 1 else 0)
    + (if df.has2 ∧ ox_from_feedback r.feedback_2 = some OX.O then 1 else 0)
    + (if df.has3 ∧ ox_from_feedback r.feedback_3 = some OX.O then 1 else 0)

/-- One row of the per-student summary table: a student identifier and the
`o_count` of that student's selected record. -/
structure SRow (σ : Type) where
  student_id : σ
  o_count : ℕ
deriving DecidableEq

/-- `df_latest` before the final sort (teacher.py lines 365-368): sort the
frame by `created_at_kst` descending when that column exists, then
`groupby("student_id").first()`: one row per distinct student, keys in
ascending order, each taking the `o_count` of the first row of its group
(the group's most recent submission). -/
def df_latest {σ : Type} [LinearOrder σ] [DecidableEq σ] (df : DataFrame σ) : List (SRow σ) :=
  let rows := if df.hasCreated then sort_values_desc created_at_kst df.rows else df.rows
  let keys := sortAsc (fun k => k) (rows.map Record.student_id).dedup
  keys.map fun k =>
    { student_id := k
      o_count := ((rows.find? fun r => decide (r.student_id = k)).map (count_o_in_row df)).getD 0 }

/-- Line 370: `df_latest[["student_id", "o_count"]].sort_values("o_count",
ascending=False)` — the summary sorted by `o_count` descending. -/
def df_latest_sorted {σ : Type} [LinearOrder σ] [DecidableEq σ] (df : DataFrame σ) : List (SRow σ) :=
  sort_values_desc (fun s => s.o_count) (df_latest df)

/-- Microseconds in one day. -/
def usPerDay : ℤ := 86400000000

/-- `datetime.combine(d, datetime.min.time(), tzinfo=KST)` (line 189): the
first instant of KST day `d`, in KST wall-clock microseconds. -/
def day_start_kst (d : ℤ) : ℤ := d * usPerDay

/-- `datetime.combine(d, datetime.max.time(), tzinfo=KST)` (line 190): the
last microsecond (23:59:59.999999) of KST day `d`. -/
def day_end_kst (d : ℤ) : ℤ := d * usPerDay + (usPerDay - 1)

/-- The boolean date mask of line 191:
`(df["created_at_kst"] >= start_dt_kst) & (df["created_at_kst"] <= end_dt_kst)`. -/
def date_mask {σ : Type} (start_d end_d : ℤ) (r : Record σ) : Bool :=
  decide (day_start_kst start_d ≤ created_at_kst r)
    && decide (created_at_kst r ≤ day_end_kst end_d)

/-- `df_f = df.loc[mask]` (line 192): keep exactly the rows the mask selects. -/
def filter_dates {σ : Type} (start_d end_d : ℤ) (rows : List (Record σ)) : List (Record σ) :=
  rows.filter (date_mask start_d end_d)

lemma pyStartsWith_X_not_O (t : List Char) (h : pyStartsWith ['X', ':'] t = true) :
    pyStartsWith ['O', ':'] t = false := by
  cases t with
  | nil => simp [pyStartsWith] at h
  | cons c cs =>
    simp only [pyStartsWith, Bool.and_eq_true, decide_eq_true_eq] at h
    simp [pyStartsWith, ← h.1]

lemma pyStartsWith_strip_ne_nil {p : List Char} {f : List Char}
    (hp : p ≠ []) (h : pyStartsWith p (pyStrip f) = true) : f ≠ [] := by
  intro he
  subst he
  cases p with
  | nil => exact hp rfl
  | cons c cs => simp [pyStrip, pyStartsWith] at h

/-- C1 (amended): the classifier requires the colon: every input whose
stripped text starts with the literal `"O:"` classifies as `O` (Correct),
every one whose stripped text starts with `"X:"` classifies as `X`
(Incorrect); a bare `"O"` without the colon is unclassified (`none`,
i.e. Indeterminate), while `"O: good"` is Correct. -/
theorem ox_prefix_behavior :
    (∀ f : List Char, pyStartsWith ['O', ':'] (pyStrip f) = true →
      ox_from_feedback (PyVal.str f) = some OX.O)
    ∧ (∀ f : List Char, pyStartsWith ['X', ':'] (pyStrip f) = true →
      ox_from_feedback (PyVal.str f) = some OX.X)
    ∧ ox_from_feedback (PyVal.str ['O']) = none
    ∧ ox_from_feedback (PyVal.str ['O', ':', ' ', 'g', 'o', 'o', 'd']) = some OX.O := by
  refine ⟨?_, ?_, by decide, by decide⟩
  · intro f h
    have hf : f ≠ [] := pyStartsWith_strip_ne_nil (by decide) h
    simp [ox_from_feedback, hf, h]
  · intro f h
    have hf : f ≠ [] := pyStartsWith_strip_ne_nil (by decide) h
    have hO := pyStartsWith_X_not_O (pyStrip f) h
    simp [ox_from_feedback, hf, h, hO]

/-- Witness for C1's theorem at concrete inputs. -/
theorem ox_prefix_behavior_witness :
    ox_from_feedback (PyVal.str ['O', ':', ' ', 'o', 'k']) = some OX.O
    ∧ ox_from_feedback (PyVal.str [' ', 'X', ':', 'n', 'o']) = some OX.X :=
  ⟨ox_prefix_behavior.1 _ (by decide), ox_prefix_behavior.2.1 _ (by decide)⟩

/-- C1 counterexample: the claim `classify("O") == Correct` fails on the
code: `ox_from_feedback` demands the colon, so a bare `"O"` yields `none`
(Indeterminate), not `O` (Correct). -/
theorem ox_bare_O_cex :
    ox_from_feedback (PyVal.str ['O']) = none
    ∧ ox_from_feedback (PyVal.str ['O']) ≠ some OX.O := by decide

/-- C2 (amended): on an empty record sequence `build_analytics` returns
`None` (a null result, which the page treats like an empty table), not an
empty sequence and not an error. -/
theorem build_analytics_empty {σ : Type} (df : DataFrame σ) (h : df.rows = []) :
    build_analytics df = none := by
  simp [build_analytics, h]

/-- Witness for C2's theorem on a concrete empty frame. -/
theorem build_analytics_empty_witness :
    build_analytics (⟨true, true, true, true, []⟩ : DataFrame ℕ) = none :=
  build_analytics_empty _ rfl

/-- C2 counterexample: on the empty input the code returns `none` (Python
`None`), not the empty sequence `some []` the claim requires. -/
theorem build_analytics_empty_cex :
    build_analytics (⟨true, true, true, true, []⟩ : DataFrame ℕ) ≠ some []
    ∧ build_analytics (⟨true, true, true, true, []⟩ : DataFrame ℕ) = none := by decide

/-- C9: the classifier is total — every input (`None`/`NaN`, non-string
values, empty or whitespace-only strings, unrecognized text) yields exactly
one of the three outcomes, and any input whose stripped text matches
neither recognized prefix yields `none` (Indeterminate). -/
theorem ox_from_feedback_total (v : PyVal) :
    (ox_from_feedback v = some OX.O ∨ ox_from_feedback v = some OX.X
      ∨ ox_from_feedback v = none)
    ∧ (∀ f : List Char, v = PyVal.str f →
        pyStartsWith ['O', ':'] (pyStrip f) = false →
        pyStartsWith ['X', ':'] (pyStrip f) = false →
        ox_from_feedback v = none)
    ∧ (v = PyVal.null → ox_from_feedback v = none)
    ∧ (v = PyVal.other → ox_from_feedback v = none) := by
  refine ⟨?_, ?_, ?_, ?_⟩
  · rcases h : ox_from_feedback v with _ | o
    · exact Or.inr (Or.inr rfl)
    · cases o
      · exact Or.inl rfl
      · exact Or.inr (Or.inl rfl)
  · intro f hv h1 h2
    subst hv
    by_cases hf : f = []
    · subst hf; rfl
    · simp [ox_from_feedback, hf, h1, h2]
  · intro h; subst h; rfl
  · intro h; subst h; rfl

/-- Witness for C9's theorem on concrete degenerate inputs. -/
theorem ox_from_feedback_total_witness :
    ox_from_feedback (PyVal.str ['m', 'a', 'y', 'b', 'e']) = none
    ∧ ox_from_feedback PyVal.null = none
    ∧ ox_from_feedback PyVal.other = none
    ∧ ox_from_feedback (PyVal.str []) = none
    ∧ ox_from_feedback (PyVal.str [' ', ' ']) = none :=
  ⟨(ox_from_feedback_total _).2.1 _ rfl (by decide) (by decide),
   (ox_from_feedback_total _).2.2.1 rfl,
   (ox_from_feedback_total _).2.2.2 rfl,
   (ox_from_feedback_total _).2.1 _ rfl (by decide) (by decide),
   (ox_from_feedback_total _).2.1 _ rfl (by decide) (by decide)⟩

lemma filter_isSome_split (l : List (Option OX)) :
    (l.filter Option.isSome).length = (l.filter isO).length + (l.filter isX).length := by
  induction l with
  | nil => rfl
  | cons a t ih =>
    rcases a with _ | o
    · simpa [List.filter_cons, isO, isX] using ih
    · cases o <;> simp [List.filter_cons, isO, isX] <;> omega

lemma filter_isSome_isNone (l : List (Option OX)) :
    (l.filter Option.isSome).length + (l.filter Option.isNone).length = l.length := by
  induction l with
  | nil => rfl
  | cons a t ih => rcases a with _ | o <;> simp [List.filter_cons] <;> omega

lemma build_analytics_mem {σ : Type} {df : DataFrame σ} {stats : List QStat} {s : QStat}
    (h : build_analytics df = some stats) (hs : s ∈ stats) :
    df.rows ≠ [] ∧ ∃ i fs, fs.length = df.rows.length ∧ s = q_stat i fs := by
  unfold build_analytics at h
  by_cases he : df.rows.isEmpty
  · rw [if_pos he] at h
    exact absurd h (by simp)
  · rw [if_neg he] at h
    refine ⟨fun hnil => he (by simp [hnil]), ?_⟩
    obtain rfl := Option.some_inj.mp h
    rcases List.mem_append.mp hs with h12 | h3
    · rcases List.mem_append.mp h12 with h1 | h2
      · cases hb : df.has1 with
        | false => rw [hb] at h1; simp at h1
        | true =>
          rw [hb] at h1
          simp only [if_true] at h1
          exact ⟨1, df.rows.map Record.feedback_1, by simp, List.mem_singleton.mp h1⟩
      · cases hb : df.has2 with
        | false => rw [hb] at h2; simp at h2
        | true =>
          rw [hb] at h2
          simp only [if_true] at h2
          exact ⟨2, df.rows.map Record.feedback_2, by simp, List.mem_singleton.mp h2⟩
    · cases hb : df.has3 with
      | false => rw [hb] at h3; simp at h3
      | true =>
        rw [hb] at h3
        simp only [if_true] at h3
        exact ⟨3, df.rows.map Record.feedback_3, by simp, List.mem_singleton.mp h3⟩

/-- C6: in every statistics row produced by `build_analytics`, the `O`
count, the `X` count and the indeterminate (missing) count partition the
records: their sum is the total number of records. -/
theorem counts_partition {σ : Type} (df : DataFrame σ) (stats : List QStat) (s : QStat)
    (h : build_analytics df = some stats) (hs : s ∈ stats) :
    s.o_cnt + s.x_cnt + s.missing = df.rows.length := by
  obtain ⟨-, i, fs, hlen, rfl⟩ := build_analytics_mem h hs
  have h1 := filter_isSome_split (fs.map ox_from_feedback)
  have h2 := filter_isSome_isNone (fs.map ox_from_feedback)
  simp only [List.length_map] at h2
  simp only [q_stat]
  omega

/-- Concrete frame for C6's witness: one `O`, one `X`, one missing cell. -/
def df_c6 : DataFrame ℕ :=
  ⟨true, false, false, true,
    [⟨1, 0, PyVal.str ['O', ':', 'a'], PyVal.null, PyVal.null⟩,
     ⟨2, 0, PyVal.str ['X', ':', 'b'], PyVal.null, PyVal.null⟩,
     ⟨3, 0, PyVal.null, PyVal.null, PyVal.null⟩]⟩

/-- The statistics row of `df_c6`. -/
def s_c6 : QStat := q_stat 1 [PyVal.str ['O', ':', 'a'], PyVal.str ['X', ':', 'b'], PyVal.null]

/-- Witness for C6's theorem on `df_c6`. -/
theorem counts_partition_witness :
    s_c6.o_cnt + s_c6.x_cnt + s_c6.missing = df_c6.rows.length :=
  counts_partition df_c6 [s_c6] s_c6 (by decide) (by decide)
/-- The fraction `a / b` lies in the binade `[2^52, 2^53)`: its round to
nearest (ties to even) is then a valid 53-bit binary64 significand, which
certifies the exponent choice in a `float_rate_tenths` trace. -/
def binade_ok (a b : ℕ) : Prop :=
  b * 2 ^ 52 ≤ a ∧ a < b * 2 ^ 53

instance (a b : ℕ) : Decidable (binade_ok a b) :=
  inferInstanceAs (Decidable (b * 2 ^ 52 ≤ a ∧ a < b * 2 ^ 53))

/-- The IEEE-754 binary64 evaluation of the Python expression
`round(o / n * 100, 1)` (teacher.py lines 128-137), in tenths of a
percent.  CPython's `int / int` is the correctly rounded double
`m1 * 2 ^ (-t1)` with `m1 = rheNat (o * 2 ^ t1) n`; multiplying by the
exact double `100.0` gives the correctly rounded double `m2 * 2 ^ (-t2)`
with `m2 = rheNat (100 * m1) (2 ^ (t1 - t2))`; and `round(x, 1)` rounds
the exact value of that double to the nearest tenth, ties to even:
`rheNat (10 * m2) (2 ^ t2)`.  The binade exponents `t1`, `t2` are inputs
here; the theorems using this definition certify them with `binade_ok`
conjuncts. -/
def float_rate_tenths (o n t1 t2 : ℕ) : ℕ :=
  let m1 := rheNat (o * 2 ^ t1) n
  let m2 := rheNat (100 * m1) (2 ^ (t1 - t2))
  rheNat (10 * m2) (2 ^ t2)

/-- C3's failing frame: 80 records whose first feedback column classifies
as `O` 23 times and as `X` 57 times, none missing. -/
def df_float3 : DataFrame ℕ :=
  ⟨true, false, false, true,
    List.replicate 23 (⟨1, 0, PyVal.str ['O', ':'], PyVal.null, PyVal.null⟩ : Record ℕ)
      ++ List.replicate 57 (⟨2, 0, PyVal.str ['X', ':'], PyVal.null, PyVal.null⟩ : Record ℕ)⟩

/-- C3 (code bug): on `df_float3` the program's displayed O rate is not
the claim's `o_cnt / classified * 100` rounded to one decimal place.  The
exact rate is `23 / 80 * 100 = 28.75`, which rounds to `28.8` (tenths
`288`, under round-half-even and round-half-up alike), but the binary64
value of `23 / 80 * 100` is `8092405580431359 * 2 ^ (-48) = 28.74999…`,
strictly below the tie, so Python `round(·, 1)` displays `28.7` (tenths
`287`).  The conjuncts certify, in order: the frame is reachable with
these counts; the two binade choices of the float trace; the program's
displayed tenths; the claim's tenths; and their disagreement. -/
theorem float_rate_divergence :
    (build_analytics df_float3 = some [q_stat 1 (df_float3.rows.map Record.feedback_1)]
      ∧ (q_stat 1 (df_float3.rows.map Record.feedback_1)).o_cnt = 23
      ∧ (q_stat 1 (df_float3.rows.map Record.feedback_1)).x_cnt = 57
      ∧ (q_stat 1 (df_float3.rows.map Record.feedback_1)).missing = 0)
    ∧ (binade_ok (23 * 2 ^ 54) 80
      ∧ binade_ok (100 * rheNat (23 * 2 ^ 54) 80) (2 ^ 6)
      ∧ 100 * rheNat (100 * rheNat (23 * 2 ^ 54) 80) (2 ^ 6) < 2875 * 2 ^ 48
      ∧ float_rate_tenths 23 80 54 48 = 287)
    ∧ rheNat (1000 * 23) 80 = 288
    ∧ (287 : ℕ) ≠ 288 := by
  decide

/-- C7's failing frame: 80 records whose first feedback column classifies
as `O` 31 times and as `X` 49 times, none missing. -/
def df_float7 : DataFrame ℕ :=
  ⟨true, false, false, true,
    List.replicate 31 (⟨1, 0, PyVal.str ['O', ':'], PyVal.null, PyVal.null⟩ : Record ℕ)
      ++ List.replicate 49 (⟨2, 0, PyVal.str ['X', ':'], PyVal.null, PyVal.null⟩ : Record ℕ)⟩

/-- C7 (code bug): on `df_float7` the displayed rates sum to `100.1`,
violating the claimed bound `round(correctRate, 1) + round(incorrectRate,
1) ≤ 100.0`.  The binary64 value of `31 / 80 * 100` is exactly `38.75`
and rounds (ties to even) to `38.8` (tenths `388`), but the binary64
value of `49 / 80 * 100` is `8620171161763841 * 2 ^ (-47) = 61.25000…7`,
strictly above the exact `61.25`, so `round(·, 1)` displays `61.3`
(tenths `613`) where exact rounding would give `61.2`: the displayed sum
is `100.1 > 100.0`, with no indeterminate records.  The conjuncts certify
the reachable counts, both float traces with their binades, the strict
overshoot of the second product, and the violated bound. -/
theorem float_rate_sum_overflow :
    (build_analytics df_float7 = some [q_stat 1 (df_float7.rows.map Record.feedback_1)]
      ∧ (q_stat 1 (df_float7.rows.map Record.feedback_1)).o_cnt = 31
      ∧ (q_stat 1 (df_float7.rows.map Record.feedback_1)).x_cnt = 49
      ∧ (q_stat 1 (df_float7.rows.map Record.feedback_1)).missing = 0)
    ∧ (binade_ok (31 * 2 ^ 54) 80
      ∧ binade_ok (100 * rheNat (31 * 2 ^ 54) 80) (2 ^ 7)
      ∧ float_rate_tenths 31 80 54 47 = 388)
    ∧ (binade_ok (49 * 2 ^ 53) 80
      ∧ binade_ok (100 * rheNat (49 * 2 ^ 53) 80) (2 ^ 6)
      ∧ 6125 * 2 ^ 47 < 100 * rheNat (100 * rheNat (49 * 2 ^ 53) 80) (2 ^ 6)
      ∧ float_rate_tenths 49 80 53 47 = 613)
    ∧ rheNat (1000 * 31) 80 + rheNat (1000 * 49) 80 = 1000
    ∧ 1000 < float_rate_tenths 31 80 54 47 + float_rate_tenths 49 80 53 47 := by
  decide

lemma insertAsc_perm {α β : Type} [LinearOrder β] (key : α → β) (a : α) (l : List α) :
    (insertAsc key a l).Perm (a :: l) := by
  induction l with
  | nil => exact List.Perm.refl _
  | cons b t ih =>
    rw [insertAsc]
    by_cases h : key a ≤ key b
    · rw [if_pos h]
    · rw [if_neg h]
      exact (ih.cons b).trans (List.Perm.swap a b t)

lemma sortAsc_perm {α β : Type} [LinearOrder β] (key : α → β) (l : List α) :
    (sortAsc key l).Perm l := by
  induction l with
  | nil => exact List.Perm.refl _
  | cons a t ih =>
    rw [sortAsc]
    exact (insertAsc_perm key a (sortAsc key t)).trans (ih.cons a)

lemma insertAsc_pairwise {α β : Type} [LinearOrder β] (key : α → β) (a : α) (l : List α)
    (h : l.Pairwise fun x y => key x ≤ key y) :
    (insertAsc key a l).Pairwise fun x y => key x ≤ key y := by
  induction l with
  | nil => simp [insertAsc]
  | cons b t ih =>
    rcases List.pairwise_cons.mp h with ⟨hb, ht⟩
    rw [insertAsc]
    by_cases hab : key a ≤ key b
    · rw [if_pos hab]
      refine List.pairwise_cons.mpr ⟨?_, h⟩
      intro x hx
      rcases List.mem_cons.mp hx with rfl | hx3
      · exact hab
      · exact le_trans hab (hb x hx3)
    · rw [if_neg hab]
      refine List.pairwise_cons.mpr ⟨?_, ih ht⟩
      intro x hx
      rcases List.mem_cons.mp ((insertAsc_perm key a t).mem_iff.mp hx) with rfl | hx3
      · exact le_of_lt (not_le.mp hab)
      · exact hb x hx3

lemma sort_values_desc_pairwise {α β : Type} [LinearOrder β] (key : α → β) (l : List α) :
    (sort_values_desc key l).Pairwise fun x y => key y ≤ key x := by
  rw [sort_values_desc, List.pairwise_reverse]
  have h0 : (sortAsc key l).Pairwise fun x y => key x ≤ key y := by
    induction l with
    | nil => simp [sortAsc]
    | cons a t ih =>
      rw [sortAsc]
      exact insertAsc_pairwise key a (sortAsc key t) ih
  exact h0

lemma find?_key_max {α β : Type} [LinearOrder β] (key : α → β) (p : α → Bool) (l : List α)
    (hsort : l.Pairwise fun x y => key y ≤ key x) (r : α) (h : l.find? p = some r) :
    ∀ x ∈ l, p x = true → key x ≤ key r := by
  induction l with
  | nil => simp at h
  | cons a t ih =>
    rcases List.pairwise_cons.mp hsort with ⟨ha, ht⟩
    by_cases hpa : p a = true
    · rw [List.find?_cons_of_pos t hpa] at h
      obtain rfl := Option.some_inj.mp h
      intro x hx _
      rcases List.mem_cons.mp hx with rfl | hx3
      · exact le_refl _
      · exact ha x hx3
    · rw [List.find?_cons_of_neg t (by simpa using hpa)] at h
      intro x hx hpx
      rcases List.mem_cons.mp hx with rfl | hx3
      · exact absurd hpx hpa
      · exact ih ht h x hx3 hpx

lemma sortAsc_pairwise {α β : Type} [LinearOrder β] (key : α → β) (l : List α) :
    (sortAsc key l).Pairwise fun x y => key x ≤ key y := by
  induction l with
  | nil => simp [sortAsc]
  | cons a t ih =>
    rw [sortAsc]
    exact insertAsc_pairwise key a (sortAsc key t) ih

lemma rows_sel_perm {σ : Type} (df : DataFrame σ) :
    (if df.hasCreated then sort_values_desc created_at_kst df.rows else df.rows).Perm
      df.rows := by
  split
  · rw [sort_values_desc]
    exact (List.reverse_perm _).trans (sortAsc_perm _ _)
  · exact List.Perm.refl _

lemma df_latest_spec {σ : Type} [LinearOrder σ] [DecidableEq σ] (df : DataFrame σ)
    (rows : List (Record σ))
    (hrows : rows = if df.hasCreated then sort_values_desc created_at_kst df.rows
      else df.rows) :
    df_latest df = (sortAsc (fun k => k) (rows.map Record.student_id).dedup).map
      fun k => ⟨k, ((rows.find? fun r => decide (r.student_id = k)).map
          (count_o_in_row df)).getD 0⟩ := by
  subst hrows
  rfl

/-- C8: the per-student summary has exactly one row per distinct
`student_id` occurring in the input — its identifier column is
duplicate-free and contains an identifier iff some input record carries
it, however many submissions each student has. -/
theorem one_row_per_student {σ : Type} [LinearOrder σ] [DecidableEq σ] (df : DataFrame σ) :
    ((df_latest_sorted df).map SRow.student_id).Nodup
    ∧ ∀ k : σ, k ∈ (df_latest_sorted df).map SRow.student_id
        ↔ k ∈ df.rows.map Record.student_id := by
  have hd := df_latest_spec df _ rfl
  have hrp := rows_sel_perm df
  set R := if df.hasCreated then sort_values_desc created_at_kst df.rows else df.rows
    with hRdef
  have hids : (df_latest df).map SRow.student_id
      = sortAsc (fun k : σ => k) (R.map Record.student_id).dedup := by
    rw [hd, List.map_map]
    exact List.map_id _
  have hperm1 : (df_latest_sorted df).Perm (df_latest df) := by
    rw [df_latest_sorted, sort_values_desc]
    exact (List.reverse_perm _).trans (sortAsc_perm _ _)
  have hpids : ((df_latest_sorted df).map SRow.student_id).Perm
      ((R.map Record.student_id).dedup) := by
    refine (hperm1.map SRow.student_id).trans ?_
    rw [hids]
    exact sortAsc_perm _ _
  constructor
  · exact hpids.symm.nodup (List.nodup_dedup _)
  · intro k
    rw [hpids.mem_iff, List.mem_dedup, (hrp.map Record.student_id).mem_iff]

/-- C5 (amended): the per-student summary is sorted by `o_count`
descending.  Nothing more is asserted about rows with equal `o_count`:
line 370 gives no secondary sort key and pandas' default descending sort
(an unstable quicksort argsort, reversed) leaves the tie order
implementation-defined — in particular it is not the student_id-ascending
order the original claim states (see `summary_sort_cex`). -/
theorem summary_sort_desc {σ : Type} [LinearOrder σ] [DecidableEq σ] (df : DataFrame σ) :
    (df_latest_sorted df).Pairwise fun a b => b.o_count ≤ a.o_count := by
  rw [df_latest_sorted, sort_values_desc, List.pairwise_reverse]
  exact sortAsc_pairwise (fun s => s.o_count) (df_latest df)

/-- Concrete frame for C5's counterexample: students `"A"` and `"B"`, one
submission each, both with exactly one `O`. -/
def df_c5 : DataFrame (List Char) :=
  ⟨true, false, false, true,
    [⟨['A'], 1, PyVal.str ['O', ':'], PyVal.null, PyVal.null⟩,
     ⟨['B'], 2, PyVal.str ['O', ':'], PyVal.null, PyVal.null⟩]⟩

/-- C5 counterexample: on `df_c5` both students tie with `o_count = 1`,
yet the summary lists `"B"` before `"A"` although `"A" < "B"` — the
claimed ascending `student_id` tie-break fails on the code. -/
theorem summary_sort_cex :
    df_latest_sorted df_c5 = [⟨['B'], 1⟩, ⟨['A'], 1⟩]
    ∧ (['A'] : List Char) < ['B']
    ∧ ¬ (df_latest_sorted df_c5).Pairwise
        (fun a b => b.o_count ≤ a.o_count
          ∧ (a.o_count = b.o_count → a.student_id < b.student_id)) := by
  refine ⟨by decide, by decide, ?_⟩
  intro hpw
  have h1 : (⟨['B'], 1⟩ : SRow (List Char)).o_count = (⟨['A'], 1⟩ : SRow (List Char)).o_count
      → (⟨['B'], 1⟩ : SRow (List Char)).student_id < (⟨['A'], 1⟩ : SRow (List Char)).student_id := by
    have hq : df_latest_sorted df_c5 = [⟨['B'], 1⟩, ⟨['A'], 1⟩] := by decide
    rw [hq] at hpw
    exact (List.pairwise_cons.mp hpw).1 _ (List.mem_singleton_self _) |>.2
  exact absurd (h1 rfl) (by decide)

/-- C4: whenever the `created_at` column is present, the record backing
each student's summary row belongs to that student and carries the
maximum `created_at` among the student's records, and the row's `o_count`
is computed from that record. -/
theorem latest_selected {σ : Type} [LinearOrder σ] [DecidableEq σ] (df : DataFrame σ)
    (hc : df.hasCreated = true) (s : SRow σ) (hs : s ∈ df_latest df) :
    ∃ r ∈ df.rows, r.student_id = s.student_id ∧ s.o_count = count_o_in_row df r
      ∧ ∀ x ∈ df.rows, x.student_id = s.student_id → x.created_at ≤ r.created_at := by
  have hd := df_latest_spec df (sort_values_desc created_at_kst df.rows) (by simp [hc])
  set R := sort_values_desc created_at_kst df.rows with hRdef
  have hrp : R.Perm df.rows := by
    rw [hRdef, sort_values_desc]
    exact (List.reverse_perm _).trans (sortAsc_perm _ _)
  have hsorted : R.Pairwise fun x y => created_at_kst y ≤ created_at_kst x := by
    rw [hRdef]
    exact sort_values_desc_pairwise _ _
  rw [hd] at hs
  obtain ⟨k, hk, rfl⟩ := List.mem_map.mp hs
  have hkmem : k ∈ R.map Record.student_id :=
    List.mem_dedup.mp ((sortAsc_perm (fun k : σ => k) _).mem_iff.mp hk)
  obtain ⟨r0, hr0, hr0k⟩ := List.mem_map.mp hkmem
  have hfind : (R.find? fun r => decide (r.student_id = k)).isSome := by
    rw [List.find?_isSome]
    exact ⟨r0, hr0, decide_eq_true hr0k⟩
  obtain ⟨r, hr⟩ := Option.isSome_iff_exists.mp hfind
  have hrel : r ∈ R := List.mem_of_find?_eq_some hr
  have hpr := List.find?_some hr
  have hrk : r.student_id = k := of_decide_eq_true hpr
  refine ⟨r, hrp.mem_iff.mp hrel, hrk, ?_, ?_⟩
  · show ((R.find? fun r => decide (r.student_id = k)).map (count_o_in_row df)).getD 0
      = count_o_in_row df r
    rw [hr]
    rfl
  · intro x hx hxs
    have hxr : x ∈ R := hrp.mem_iff.mpr hx
    have hple := find?_key_max created_at_kst _ R hsorted r hr x hxr (decide_eq_true hxs)
    simp only [created_at_kst] at hple
    omega

/-- Concrete frame for C4's witness: student `"A"` submits at time 1 with
feedback `(O, X, None)` and at time 2 with feedback `(X, O, O)`. -/
def df_c4 : DataFrame (List Char) :=
  ⟨true, true, true, true,
    [⟨['A'], 1, PyVal.str ['O', ':', 'o', 'k'], PyVal.str ['X', ':', 'n', 'o'], PyVal.null⟩,
     ⟨['A'], 2, PyVal.str ['X', ':', 'n', 'o'], PyVal.str ['O', ':', 'o', 'k'],
       PyVal.str ['O', ':', 'o', 'k']⟩]⟩

/-- Witness for C4's theorem on the two-submission scenario: the summary
row for `"A"` is built from the later record and counts 2 `O` outcomes. -/
theorem latest_selected_witness :
    df_latest df_c4 = [⟨['A'], 2⟩]
    ∧ (∃ r ∈ df_c4.rows, r.student_id = (⟨['A'], 2⟩ : SRow (List Char)).student_id
        ∧ (⟨['A'], 2⟩ : SRow (List Char)).o_count = count_o_in_row df_c4 r
        ∧ ∀ x ∈ df_c4.rows, x.student_id = (⟨['A'], 2⟩ : SRow (List Char)).student_id →
            x.created_at ≤ r.created_at) :=
  ⟨by decide, latest_selected df_c4 rfl ⟨['A'], 2⟩ (by decide)⟩

/-- C10: the KST date-range filter keeps a record iff its creation
instant, converted to UTC+9 (`created_at_kst`), is at or after 00:00:00
of the start day and at or before the last microsecond (23:59:59.999999)
of the end day; the upper bound is equivalent to lying strictly before
the first instant of the following day, so both boundary days are kept in
full. -/
theorem date_filter_inclusive {σ : Type} (start_d end_d : ℤ) (rows : List (Record σ))
    (r : Record σ) :
    (r ∈ filter_dates start_d end_d rows ↔
      r ∈ rows ∧ day_start_kst start_d ≤ created_at_kst r
        ∧ created_at_kst r ≤ day_end_kst end_d)
    ∧ (created_at_kst r ≤ day_end_kst end_d ↔
        created_at_kst r < day_start_kst (end_d + 1)) := by
  constructor
  · rw [filter_dates, List.mem_filter, date_mask]
    simp [Bool.and_eq_true, decide_eq_true_eq, and_assoc]
  · rw [day_end_kst, day_start_kst, usPerDay]
    omega
